import Mathlib

/-!
Verification development for the scriptor run-and-chain orchestration engine.

The JavaScript sources are shallowly embedded: JSON values become an inductive
type `JValue`, JavaScript objects become association lists with last-binding-wins
lookup (mirroring property assignment order), fallible functions return
`Except String`, and the effectful run/finalization code is embedded as pure
state transformers and event traces.
-/

namespace Scriptor

/-- A JavaScript number, modelled as a fraction `num / den`.  Number literals
are written in lowest terms, so `Number.isInteger` is `den == 1`.  This keeps
every operation computable by `rfl`/`decide`. -/
structure JSNumber where
  num : Int
  den : Nat
  deriving DecidableEq, Repr

/-- The JavaScript number for an integer. -/
def JSNumber.ofInt (i : Int) : JSNumber := ⟨i, 1⟩

/-- JavaScript's `Number.isInteger` (on lowest-terms fractions). -/
def JSNumber.isInteger (q : JSNumber) : Bool := q.den == 1

/-- JavaScript's `<` on numbers: `a/b < c/d` iff `a*d < c*b`. -/
def JSNumber.blt (a b : JSNumber) : Bool := a.num * (b.den : Int) < b.num * (a.den : Int)

/-- JavaScript's `+` on numbers (fraction addition; not renormalized, which is
irrelevant for the integer arithmetic the sources perform). -/
def JSNumber.add (a b : JSNumber) : JSNumber :=
  ⟨a.num * (b.den : Int) + b.num * (a.den : Int), a.den * b.den⟩

/-- The JavaScript number `1`. -/
def JSNumber.one : JSNumber := ⟨1, 1⟩

/-- JavaScript's `=== 0` on numbers. -/
def JSNumber.isZero (q : JSNumber) : Bool := q.num == 0

/-- A JSON value as produced by `JSON.parse`.  `null` is a value of its own,
distinct from an absent property. -/
inductive JValue where
  | null
  | bool (b : Bool)
  | num (q : JSNumber)
  | str (s : String)
  | obj (fields : List (String × JValue))
  | arr (elems : List JValue)

/-- A JavaScript object: an association list of properties in assignment
order.  Later bindings shadow earlier ones, as in JavaScript. -/
abbrev JObj := List (String × JValue)

/-- Property lookup on an association list where the *last* binding wins,
mirroring JavaScript property assignment order (`o[k] = v` overwrites). -/
def lookupLast {α : Type} (l : List (String × α)) (k : String) : Option α :=
  l.foldl (fun acc e => if e.1 = k then some e.2 else acc) none

/-- `objGet o k` is JavaScript's `o[k]` (and `k in o` is `(objGet o k).isSome`). -/
def objGet (o : JObj) (k : String) : Option JValue :=
  lookupLast o k

/-- `objSet o k v` is JavaScript's `o[k] = v`: appending the binding gives the
correct last-binding-wins lookup semantics. -/
def objSet (o : JObj) (k : String) (v : JValue) : JObj :=
  o ++ [(k, v)]

/-- JavaScript's `typeof` on a parsed JSON value (`typeof null` is "object"). -/
def typeofStr : JValue → String
  | .null => "object"
  | .bool _ => "boolean"
  | .num _ => "number"
  | .str _ => "string"
  | .obj _ => "object"
  | .arr _ => "object"

/-- JavaScript truthiness (`Boolean(v)`) of a parsed JSON value: `false`, `0`,
`""` and `null` are falsy, everything else is truthy. -/
def jsTruthy : JValue → Bool
  | .null => false
  | .bool b => b
  | .num q => !q.isZero
  | .str s => !(s == "")
  | .obj _ => true
  | .arr _ => true

/-- JavaScript strict equality `true === v`: holds exactly for the boolean
value `true`. -/
def isStrictTrue : JValue → Bool
  | .bool true => true
  | _ => false

/-- `path.join` for the well-formed relative segments the sources pass it. -/
def pathJoin (a b : String) : String := a ++ "/" ++ b

/-- `path.basename`: the part of the path after the last "/". -/
def pathBasename (p : String) : String :=
  ⟨(p.data.foldl (fun acc c => if c = '/' then [] else acc ++ [c]) [])⟩

/-- Modelled from the spec: a number formatted with leading zeroes to the
placeholder's width (the specification's description of the run-directory
name, used to compare against `getRunOutputDirectory`). -/
def zeroPadded (width : Nat) (n : Int) : List Char :=
  List.replicate (width - (toString n).data.length) '0' ++ (toString n).data

/-- `overrideWith x fallback` is `x` when defined and `fallback` otherwise:
the result shape of every last-binding-wins lookup in this development. -/
def overrideWith {α : Type} (x fallback : Option α) : Option α :=
  match x with
  | some v => some v
  | none => fallback

namespace Chain

/-- `chain.getChainConfiguration`: reads the chain configuration file
(`<chainName>.json` in the parent output directory); an absent file yields the
empty configuration `{}`.  The file's parsed content is the model's input. -/
def getChainConfiguration (file : Option JObj) : JObj :=
  file.getD []

/-- `chain.getNextChainIndex`: the index for the next run.  An absent
`nextIndex` yields 1; a non-number throws; a number that is not an integer or
is smaller than 1 throws; otherwise the stored value is returned unchanged. -/
def getNextChainIndex (chainConfiguration : JObj) : Except String JSNumber :=
  match objGet chainConfiguration "nextIndex" with
  | none => .ok (JSNumber.ofInt 1)
  | some (.num q) =>
    if !q.isInteger || q.blt (JSNumber.ofInt 1) then
      .error ("chain nextIndex is not a positive integer")
    else
      .ok q
  | some v => .error ("chain nextIndex is not a positive integer but a " ++ typeofStr v)

/-- `chain.stepChainConfiguration`: rewrites the chain configuration after a
completed run, incrementing `nextIndex` and recording the finished run's
directory name as `previous`.  The model takes the configuration file's prior
content (`none` for an absent file) and the finished run's output directory,
and returns the new file content. -/
def stepChainConfiguration (file : Option JObj) (chainOutputDirectory : String) :
    Except String JObj := do
  let chainConfiguration := getChainConfiguration file
  let nextIndex ← getNextChainIndex chainConfiguration
  let withIndex := objSet chainConfiguration "nextIndex" (.num (nextIndex.add JSNumber.one))
  pure (objSet withIndex "previous" (.str (pathBasename chainOutputDirectory)))

end Chain

namespace Files

/-- The filesystem as seen by `files.readOptions`: the parsed JSON object of
each readable options file, by path.  (`fs.readFileSync` + `JSON.parse` on a
path outside the map throws.) -/
abbrev FileSystem := List (String × JObj)

/-- Looks a path up in the modelled filesystem. -/
def fsGet (fs : FileSystem) (p : String) : Option JObj :=
  lookupLast fs p

/-- The file-reading loop of `files.readOptions`: reads and parses each path
in order and `Object.assign`s its top-level properties onto the accumulated
options (appending the bindings, so later files win); a missing file throws. -/
def mergeFiles (fs : FileSystem) : List String → JObj → Except String JObj
  | [], options => .ok options
  | p :: ps, options =>
    match fsGet fs p with
    | none => .error ("ENOENT: no such file or directory: " ++ p)
    | some fileObject => mergeFiles fs ps (options ++ fileObject)

/-- The required-options loop of `files.readOptions`: throws on the first
name of `required` that is not a property (`req in options`) of the merged
options. -/
def checkRequired (options : JObj) : List String → Except String JObj
  | [] => .ok options
  | req :: rest =>
    if (objGet options req).isSome then checkRequired options rest
    else .error ("Missing required option '" ++ req ++ "'")

/-- `files.readOptions`: `Object.assign({}, defaults)`, then merge each file
in order, then check the required names. -/
def readOptions (fs : FileSystem) (paths : List String) (defaults : JObj)
    (required : List String) : Except String JObj :=
  (mergeFiles fs paths defaults).bind (fun options => checkRequired options required)

/-- Modelled from the spec: the value for key `k` from the last file in
`paths` that defines `k` (the specification's description of the merge
result, used to compare against `readOptions`). -/
def lastFileValue (fs : FileSystem) (paths : List String) (k : String) : Option JValue :=
  paths.foldl (fun acc p => overrideWith ((fsGet fs p).bind (fun o => objGet o k)) acc) none

/-- Name of the directory holding the browser context directories. -/
def BROWSER_CONTEXTS_DIRECTORY : String := "browserContexts"

/-- `files.getExisting`: the paths, in base-directory order, of the existing
files with the given name (inside the named browser-context directory when a
context name is given); `null` base directories are skipped.  File existence
is the model's input. -/
def getExisting (fileName : String) (baseDirectories : List (Option String))
    (contextName : Option String) (fsExists : String → Bool) : List String :=
  (baseDirectories.map (fun baseDirectory =>
    match baseDirectory with
    | none => none
    | some b =>
      let file := match contextName with
        | none => pathJoin b fileName
        | some c => pathJoin (pathJoin (pathJoin b BROWSER_CONTEXTS_DIRECTORY) c) fileName
      if fsExists file then some file else none)).filterMap id

end Files

namespace Docker

/-- Matches the regular expression `%0[0-9]+d` at the head of the character
list, returning the matched characters and the remainder after the match. -/
def matchRunFormatAt : List Char → Option (List Char × List Char)
  | '%' :: '0' :: rest =>
    let digits := rest.takeWhile Char.isDigit
    if digits.isEmpty then none
    else
      match rest.drop digits.length with
      | 'd' :: after => some ('%' :: '0' :: (digits ++ ['d']), after)
      | _ => none
  | _ => none

/-- All non-overlapping matches of `%0[0-9]+d` scanning left to right, as
`pattern.matchAll("%0[0-9]+d")` produces them.  The fuel argument only bounds
the recursion; `matchAllRunFormat` supplies the list length, which suffices
because every step consumes at least one character. -/
def matchAllRunFormatAux : Nat → List Char → List (List Char)
  | 0, _ => []
  | _, [] => []
  | fuel + 1, c :: rest =>
    match matchRunFormatAt (c :: rest) with
    | some (m, after) => m :: matchAllRunFormatAux fuel after
    | none => matchAllRunFormatAux fuel rest

/-- All matches of `%0[0-9]+d` in a string. -/
def matchAllRunFormat (s : List Char) : List (List Char) :=
  matchAllRunFormatAux s.length s

/-- `parseInt` on a string of decimal digits. -/
def digitsVal (ds : List Char) : Nat :=
  ds.foldl (fun acc c => acc * 10 + (c.toNat - '0'.toNat)) 0

/-- The per-match formatting of `getRunOutputDirectory`:
`"0".repeat(Math.max(0, numDigits - String(runNumber).length)) + String(runNumber)`
(truncated natural subtraction is exactly `Math.max(0, ...)`). -/
def formatRunNumber (numDigits : Nat) (runNumber : Int) : List Char :=
  let runNumberString := (toString runNumber).data
  List.replicate (numDigits - runNumberString.length) '0' ++ runNumberString

/-- JavaScript's `String.prototype.replace` with a string pattern: replaces
only the first occurrence (the string is returned unchanged if the target
does not occur). -/
def replaceFirst : List Char → List Char → List Char → List Char
  | [], _, _ => []
  | c :: rest, target, replacement =>
    if target.isPrefixOf (c :: rest) then
      replacement ++ (c :: rest).drop target.length
    else
      c :: replaceFirst rest target replacement

/-- `docker.getRunOutputDirectory`: substitutes the run number, formatted per
each `%0[0-9]+d` match of the pattern, into the pattern, and joins the result
onto the output directory. -/
def getRunOutputDirectory (outputDirectory pattern : String) (runNumber : Int) :
    String :=
  let formatMatches := matchAllRunFormat pattern.data
  let runDirectoryName := formatMatches.foldl
    (fun runDirectoryName m =>
      let numDigits := digitsVal ((m.drop 2).dropLast)
      replaceFirst runDirectoryName m (formatRunNumber numDigits runNumber))
    pattern.data
  pathJoin outputDirectory ⟨runDirectoryName⟩

/-- One run performed by the chain loop of `docker.run`: the loop variable
`run`, the run number `start + run`, and the input/output directories passed
to `runOnceSafe`. -/
structure RunRecord where
  runIdx : Nat
  runNumber : Int
  inputDirectory : Option String
  outputDirectory : String

/-- The chain loop body of `docker.run`: each iteration computes the run's
output directory from the pattern and run number, performs the run
(`results runIdx` is the chainable outcome `runOnceSafe` resolves to),
stops returning `false` on a non-chainable run, and otherwise threads the
run's output directory as the next run's input directory. -/
def runChainAux (results : Nat → Bool) (outputDirectory pattern : String)
    (start : Int) (inputDirectory : Option String) (runIdx : Nat) :
    Nat → List RunRecord × Bool
  | 0 => ([], true)
  | remaining + 1 =>
    let runNumber := start + (runIdx : Int)
    let runOutputDirectory := getRunOutputDirectory outputDirectory pattern runNumber
    let record : RunRecord := ⟨runIdx, runNumber, inputDirectory, runOutputDirectory⟩
    if results runIdx then
      let rest := runChainAux results outputDirectory pattern start
        (some runOutputDirectory) (runIdx + 1) remaining
      (record :: rest.1, rest.2)
    else
      ([record], false)

/-- The chain branch of `docker.run` for a configured `max`: the loop
`for (let run = 0; run < maxRuns; ++run)` performs `max(0, maxRuns)`
iterations unless a run is not chainable; it returns the performed runs and
the final chainable result (`true` when `max` is exhausted).  The
no-chain branch and an undefined `max` (an unbounded loop) are outside this
model. -/
def run (results : Nat → Bool) (inputDirectory : Option String)
    (outputDirectory pattern : String) (start maxRuns : Int) :
    List RunRecord × Bool :=
  runChainAux results outputDirectory pattern start inputDirectory 0 maxRuns.toNat

end Docker

namespace Cli

/-- The `--chain [config]` command-line option as commander delivers it:
absent, given as a bare flag (`options.chain === true`), or given with a JSON
configuration object (already parsed; `JSON.parse` failures are outside this
model). -/
inductive ChainOption where
  | absent
  | flagOnly
  | config (chain : JObj)

/-- Default pattern for `--chain` runs. -/
def CHAIN_PATTERN_DEFAULT : String := "run%06d"

/-- JavaScript's `chain.start < 1` as evaluated by the `chain.max` validation:
by that point `chain.start` has been validated or assigned and is a number. -/
def startLt1 (chain : JObj) : Bool :=
  match objGet chain "start" with
  | some (.num q) => q.blt (JSNumber.ofInt 1)
  | _ => false

/-- The `chain.pattern` block of `cli.getChainConfiguration`: defaults an
absent pattern, throws on a non-string or one without a `%0[0-9]+d` match. -/
def checkPattern (chain : JObj) : Except String JObj :=
  match objGet chain "pattern" with
  | none => .ok (objSet chain "pattern" (.str CHAIN_PATTERN_DEFAULT))
  | some (.str s) =>
    if (Docker.matchAllRunFormat s.data).isEmpty then
      .error ("chain.pattern is missing run format: " ++ s)
    else .ok chain
  | some v => .error ("chain.pattern is not a string but a " ++ typeofStr v)

/-- The `chain.start` block of `cli.getChainConfiguration`: defaults an absent
start to 1, throws on a non-number, a non-integer, or a value below 1. -/
def checkStart (chain : JObj) : Except String JObj :=
  match objGet chain "start" with
  | none => .ok (objSet chain "start" (.num (JSNumber.ofInt 1)))
  | some (.num q) =>
    if !q.isInteger || q.blt (JSNumber.ofInt 1) then
      .error "chain.start is not a positive integer"
    else .ok chain
  | some v => .error ("chain.start is not a positive integer but a " ++ typeofStr v)

/-- The `chain.max` block of `cli.getChainConfiguration`, with the source's
test `!Number.isInteger(chain.max) || chain.start < 1` — note the second
disjunct reads `chain.start`, not `chain.max`. -/
def checkMax (chain : JObj) : Except String JObj :=
  match objGet chain "max" with
  | none => .ok chain
  | some (.num q) =>
    if !q.isInteger || startLt1 chain then
      .error "chain.max is not a positive integer"
    else .ok chain
  | some v => .error ("chain.max is not a positive integer but a " ++ typeofStr v)

/-- `cli.getChainConfiguration`: `null` for no `--chain`; otherwise the
`pattern`, `start` and `max` blocks in source order, threading the (mutated)
chain object through. -/
def getChainConfiguration (options : ChainOption) : Except String (Option JObj) :=
  match options with
  | .absent => .ok none
  | options =>
    let chain : JObj :=
      match options with
      | .config c => c
      | _ => []
    (checkPattern chain).bind (fun chain =>
      (checkStart chain).bind (fun chain =>
        (checkMax chain).map some))

end Cli

namespace Scripts

/-- Value of the `replay` run option for no replay (the default). -/
def REPLAY_NOT : String := "not"

/-- Value of the `replay` run option for read-only replay. -/
def REPLAY_READ_ONLY : String := "r"

/-- Value of the `replay` run option for read-write replay. -/
def REPLAY_READ_WRITE : String := "rw"

/-- The run options consumed by `scripts.run` (run-options.js), with the
shapes the setters produce: `proxy` is `false` or an address, `replay` is one
of "not"/"r"/"rw", `video` is `false` or a scale factor. -/
structure RunOptions where
  har : Bool
  insecure : Bool
  proxy : Option String
  replay : String
  showBrowser : Bool
  tracing : Bool
  unrandomize : String
  video : Option JSNumber
  warc : Bool

/-- The default run options of run-options.js. -/
def DEFAULT : RunOptions :=
  ⟨true, false, none, REPLAY_NOT, false, true, "constant", none, true⟩

/-- Name of the directory in a browser context directory for the run's pywb
setup. -/
def BROWSER_CONTEXT_WARC_DIRECTORY : String := "warcs"

/-- The observable interactions of the archival-proxy wiring with the pywb
collaborator and the filesystem. -/
inductive PywbEvent where
  | initCollection (directory : String)
  | reIndex (directory : String)
  | startProxy (directory : String) (record : Bool) (upstream : Option JValue)
  | copyArchive (source target : String)

/-- A started pywb proxy process: its collection directory, whether it
records missing resources, and its port. -/
structure PywbProc where
  directory : String
  record : Bool
  port : Nat

/-- The upstream proxy `preparePywb` reads from
`browserContextOptions["proxy"]["server"]` (absent unless both are set). -/
def upstreamOf (browserContextOptions : JObj) : Option JValue :=
  match objGet browserContextOptions "proxy" with
  | some (.obj p) => objGet p "server"
  | _ => none

/-- `scripts.preparePywb`: re-indexes the collection, starts pywb (recording
or not, tunnelling through the previous upstream proxy when one was set), and
points the browser context's proxy at the local pywb endpoint, ignoring TLS
errors against it.  The bound port is the model's input. -/
def preparePywb (browserContextOptions : JObj) (record : Bool)
    (pywbDirectory : String) (port : Nat) : List PywbEvent × JObj × PywbProc :=
  ([PywbEvent.reIndex pywbDirectory,
    PywbEvent.startProxy pywbDirectory record (upstreamOf browserContextOptions)],
   objSet (objSet browserContextOptions "ignoreHTTPSErrors" (.bool true)) "proxy"
     (.obj [("server", .str ("http://localhost:" ++ toString port))]),
   ⟨pywbDirectory, record, port⟩)

/-- `scripts.prepare4Warc`: only when the `warc` option is set *and* the
`replay` option is "not", initializes a fresh collection in the output
context directory and starts a recording pywb against it; otherwise does
nothing and returns null. -/
def prepare4Warc (browserContextOptions : JObj) (runOptions : RunOptions)
    (outputContextDirectory : String) (port : Nat) :
    List PywbEvent × JObj × Option PywbProc :=
  if runOptions.warc && (runOptions.replay == REPLAY_NOT) then
    let pywbDirectory := pathJoin outputContextDirectory BROWSER_CONTEXT_WARC_DIRECTORY
    let prepared := preparePywb browserContextOptions true pywbDirectory port
    (PywbEvent.initCollection pywbDirectory :: prepared.1, prepared.2.1, some prepared.2.2)
  else
    ([], browserContextOptions, none)

/-- `scripts.prepare4Replay`: when the `replay` option is not "not", copies
the prior archive (preferring the input directory over the script directory;
throwing when neither has one) into the output context directory, and starts
a pywb against the copy, recording exactly in "rw" mode; otherwise does
nothing and returns null. -/
def prepare4Replay (browserContextOptions : JObj) (runOptions : RunOptions)
    (outputContextDirectory scriptDirectory : String)
    (inputDirectory : Option String) (fsExists : String → Bool) (port : Nat) :
    Except String (List PywbEvent × JObj × Option PywbProc) :=
  if runOptions.replay != REPLAY_NOT then
    let contextName := pathBasename outputContextDirectory
    let sourcePywbDirectories := Files.getExisting BROWSER_CONTEXT_WARC_DIRECTORY
      [inputDirectory, some scriptDirectory] (some contextName) fsExists
    match sourcePywbDirectories with
    | [] => .error "Missing script and input WARC directory"
    | sourcePywbDirectory :: _ =>
      let outputPywbDirectory :=
        pathJoin outputContextDirectory BROWSER_CONTEXT_WARC_DIRECTORY
      let record := runOptions.replay == REPLAY_READ_WRITE
      let prepared := preparePywb browserContextOptions record outputPywbDirectory port
      .ok (PywbEvent.copyArchive sourcePywbDirectory outputPywbDirectory :: prepared.1,
        prepared.2.1, some prepared.2.2)
  else
    .ok ([], browserContextOptions, none)

/-- An observable action of the execution/cleanup chain of `scripts.run`. -/
inductive RunEvent where
  | logFatal (message : String)
  | stopTracing (contextName : String)
  | closeContext (contextName : String)
  | hashOutput
  | writeIdFile
  | chmodReadOnly
  | stepChain (chainName : String)

/-- The result of one `scripts.run`: its observable actions in order, and the
chainable boolean it resolves to. -/
structure RunOutcome where
  events : List RunEvent
  chainable : Bool

/-- `scripts.run` from the script invocation onward: the script's execution
either resolves to a value or rejects — a rejection is caught, logged as
fatal, and resolved to `false`; the chainable signal is
`true === await execution`; then, unconditionally, every browser context has
tracing stopped (when the tracing option is set) and is closed, the output
tree is hashed, the hash is written to the id file, the tree is chmod'ed
read-only, and the chain configuration is stepped when a chain name option is
set. -/
def run (contextNames : List String) (runOptions : RunOptions)
    (chainName : Option String) (scriptOutcome : Except String JValue) :
    RunOutcome :=
  let executed : List RunEvent × JValue :=
    match scriptOutcome with
    | .ok v => ([], v)
    | .error e => ([RunEvent.logFatal e], .bool false)
  let chainable := isStrictTrue executed.2
  let cleanupEvents := contextNames.foldr
    (fun contextName acc =>
      (if runOptions.tracing then [RunEvent.stopTracing contextName] else [])
        ++ RunEvent.closeContext contextName :: acc) []
  let finalizeEvents :=
    [RunEvent.hashOutput, RunEvent.writeIdFile, RunEvent.chmodReadOnly]
      ++ (match chainName with
          | some n => [RunEvent.stepChain n]
          | none => [])
  ⟨executed.1 ++ cleanupEvents ++ finalizeEvents, chainable⟩

/-- The output tree at finalization time: file contents by path relative to
the output directory root. -/
abbrev FileTree := List (String × String)

/-- Reads a file of the output tree. -/
def treeGet (t : FileTree) (p : String) : Option String :=
  lookupLast t p

/-- Writes a file into the output tree. -/
def treeSet (t : FileTree) (p c : String) : FileTree :=
  t ++ [(p, c)]

/-- Removes a file from the output tree. -/
def treeRemove (t : FileTree) (p : String) : FileTree :=
  t.filter (fun e => !(e.1 == p))

/-- Modelled from the spec (the external folder-hash collaborator): an ideal
collision-free content hash over the tree's paths and contents, represented
by a canonical encoding. -/
def hashTree (t : FileTree) : String :=
  t.foldl (fun acc e => acc ++ e.1 ++ "=" ++ e.2 ++ ";") ""

/-- Name of the identity sentinel file at the output root.  Modelled from the
spec: the files module defining the constant is not among the sources, only
its uses. -/
def ID_FILE_NAME : String := "id"

/-- A finalized output tree: its contents, the hash stored in the sentinel
file, and the recursive read-only lock. -/
structure LockedOutput where
  tree : FileTree
  storedHash : String
  locked : Bool

/-- The finalization tail of `scripts.run`: hash the finished tree, then
write the hash into the sentinel file at the output root, then recursively
chmod the tree to 0444. -/
def finalizeOutput (t : FileTree) : LockedOutput :=
  let hash := hashTree t
  ⟨treeSet t ID_FILE_NAME hash, hash, true⟩

/-- Writing into the output tree after finalization: fails because the tree
is permission-locked. -/
def writeLocked (o : LockedOutput) (p c : String) : Option FileTree :=
  if o.locked then none else some (treeSet o.tree p c)

end Scripts

/-! ### Lookup lemmas for JavaScript objects -/

theorem overrideWith_none {α : Type} (x : Option α) : overrideWith x none = x := by
  cases x <;> rfl

theorem lookupLast_foldl_init {α : Type} (l : List (String × α)) (k : String)
    (init : Option α) :
    l.foldl (fun acc e => if e.1 = k then some e.2 else acc) init
      = overrideWith (lookupLast l k) init := by
  induction l generalizing init with
  | nil => rfl
  | cons e t ih =>
    show List.foldl _ (if e.1 = k then some e.2 else init) t = _
    rw [ih]
    have h2 : lookupLast (e :: t) k
        = overrideWith (lookupLast t k) (if e.1 = k then some e.2 else none) := by
      show List.foldl _ (if e.1 = k then some e.2 else none) t = _
      rw [ih]
    rw [h2]
    cases lookupLast t k with
    | none =>
      by_cases he : e.1 = k <;> simp [he, overrideWith]
    | some v => rfl

theorem lookupLast_append {α : Type} (l₁ l₂ : List (String × α)) (k : String) :
    lookupLast (l₁ ++ l₂) k
      = overrideWith (lookupLast l₂ k) (lookupLast l₁ k) := by
  show List.foldl _ none (l₁ ++ l₂) = _
  rw [List.foldl_append]
  exact lookupLast_foldl_init l₂ k (lookupLast l₁ k)

theorem objGet_objSet_self (o : JObj) (k : String) (v : JValue) :
    objGet (objSet o k v) k = some v := by
  show lookupLast (o ++ [(k, v)]) k = some v
  rw [lookupLast_append]
  simp [lookupLast, overrideWith]

theorem objGet_objSet_other (o : JObj) (k k' : String) (v : JValue) (h : k ≠ k') :
    objGet (objSet o k v) k' = objGet o k' := by
  show lookupLast (o ++ [(k, v)]) k' = _
  rw [lookupLast_append]
  have : lookupLast [(k, v)] k' = none := by
    simp [lookupLast, h]
  rw [this]
  rfl

theorem foldl_override_init {α β : Type} (g : β → Option α) (l : List β)
    (init : Option α) :
    l.foldl (fun acc b => overrideWith (g b) acc) init
      = overrideWith (l.foldl (fun acc b => overrideWith (g b) acc) none) init := by
  induction l generalizing init with
  | nil => rfl
  | cons b t ih =>
    show List.foldl _ (overrideWith (g b) init) t = _
    rw [ih]
    have h2 : List.foldl (fun acc x => overrideWith (g x) acc) none (b :: t)
        = overrideWith (List.foldl (fun acc x => overrideWith (g x) acc) none t)
            (overrideWith (g b) none) := by
      show List.foldl _ (overrideWith (g b) none) t = _
      rw [ih]
    rw [h2]
    cases List.foldl (fun acc x => overrideWith (g x) acc) none t with
    | none => cases g b <;> rfl
    | some v => rfl

theorem JSNumber.add_int_one (n : Int) :
    (JSNumber.mk n 1).add JSNumber.one = ⟨n + 1, 1⟩ := by
  simp [JSNumber.add, JSNumber.one]

/-! ### Claim C7 -/

/-- Claim C7: if the persisted chain-state file holds a `nextIndex` that is not
a number, not an integer, or less than 1, reading the chain state throws an
error rather than recovering with a guessed index; a well-formed
positive-integer `nextIndex` is returned unchanged and an absent `nextIndex`
yields 1. -/
theorem c7_next_chain_index_validation (cfg : JObj) :
    (objGet cfg "nextIndex" = none →
      Chain.getNextChainIndex cfg = .ok (JSNumber.ofInt 1)) ∧
    (∀ q : JSNumber, objGet cfg "nextIndex" = some (.num q) → q.isInteger = true →
      q.blt (JSNumber.ofInt 1) = false → Chain.getNextChainIndex cfg = .ok q) ∧
    (∀ v : JValue, objGet cfg "nextIndex" = some v → (∀ q : JSNumber, v ≠ .num q) →
      ∃ e, Chain.getNextChainIndex cfg = .error e) ∧
    (∀ q : JSNumber, objGet cfg "nextIndex" = some (.num q) →
      q.isInteger = false ∨ q.blt (JSNumber.ofInt 1) = true →
      ∃ e, Chain.getNextChainIndex cfg = .error e) := by
  refine ⟨?_, ?_, ?_, ?_⟩
  · intro h
    simp [Chain.getNextChainIndex, h]
  · intro q h hint hlt
    simp [Chain.getNextChainIndex, h, hint, hlt]
  · intro v h hv
    unfold Chain.getNextChainIndex
    rw [h]
    cases v with
    | num q => exact absurd rfl (hv q)
    | null => exact ⟨_, rfl⟩
    | bool b => exact ⟨_, rfl⟩
    | str s => exact ⟨_, rfl⟩
    | obj o => exact ⟨_, rfl⟩
    | arr a => exact ⟨_, rfl⟩
  · intro q h hcond
    unfold Chain.getNextChainIndex
    rw [h]
    rcases hcond with hc | hc <;> simp [hc]

/-- Witness for C7: a stored `nextIndex` of 5 is well-formed and is returned
unchanged. -/
theorem c7_next_chain_index_validation_witness :
    objGet [("nextIndex", JValue.num ⟨5, 1⟩)] "nextIndex" = some (.num ⟨5, 1⟩) ∧
    Chain.getNextChainIndex [("nextIndex", JValue.num ⟨5, 1⟩)] = .ok ⟨5, 1⟩ :=
  ⟨rfl, (c7_next_chain_index_validation [("nextIndex", JValue.num ⟨5, 1⟩)]).2.1
    ⟨5, 1⟩ rfl rfl rfl⟩

/-! ### Claim C6 -/

/-- Claim C6: each time the persisted chain state is advanced after a completed
run, the stored `nextIndex` equals the previously stored `nextIndex` (or 1 if
no state file existed) plus exactly 1, and `previous` is set to the directory
name of the run that just finished; after 3 completed chainable runs in
directories `run000001`..`run000003` the state file holds
`{nextIndex: 4, previous: "run000003"}`. -/
theorem c6_chain_state_advance (cfg : JObj) (dir : String) (n : Int) :
    (objGet cfg "nextIndex" = some (.num ⟨n, 1⟩) →
      (JSNumber.mk n 1).blt (JSNumber.ofInt 1) = false →
      ∃ cfg', Chain.stepChainConfiguration (some cfg) dir = .ok cfg' ∧
        objGet cfg' "nextIndex" = some (.num ⟨n + 1, 1⟩) ∧
        objGet cfg' "previous" = some (.str (pathBasename dir))) ∧
    (∃ cfg', Chain.stepChainConfiguration none dir = .ok cfg' ∧
      objGet cfg' "nextIndex" = some (.num ⟨1 + 1, 1⟩) ∧
      objGet cfg' "previous" = some (.str (pathBasename dir))) ∧
    (∃ c3, ((Chain.stepChainConfiguration none "out/run000001").bind (fun c1 =>
        (Chain.stepChainConfiguration (some c1) "out/run000002").bind (fun c2 =>
          Chain.stepChainConfiguration (some c2) "out/run000003"))) = .ok c3 ∧
      objGet c3 "nextIndex" = some (.num ⟨4, 1⟩) ∧
      objGet c3 "previous" = some (.str "run000003")) := by
  refine ⟨?_, ?_, ?_⟩
  · intro h hlt
    have hidx : Chain.getNextChainIndex cfg = .ok ⟨n, 1⟩ := by
      simp [Chain.getNextChainIndex, h, hlt, JSNumber.isInteger]
    refine ⟨objSet (objSet cfg "nextIndex"
        (JValue.num ((JSNumber.mk n 1).add JSNumber.one))) "previous"
        (JValue.str (pathBasename dir)), ?_, ?_, ?_⟩
    · simp [Chain.stepChainConfiguration, Chain.getChainConfiguration, hidx]
    · rw [objGet_objSet_other _ _ _ _ (by decide), objGet_objSet_self,
        JSNumber.add_int_one]
    · rw [objGet_objSet_self]
  · refine ⟨_, rfl, ?_, ?_⟩
    · rw [objGet_objSet_other _ _ _ _ (by decide), objGet_objSet_self]
      rfl
    · rw [objGet_objSet_self]
  · exact ⟨_, rfl, rfl, rfl⟩

/-- Witness for C6: advancing from a stored `nextIndex` of 3 after a run in
directory `out/run000003` stores `nextIndex = 4` and `previous = "run000003"`. -/
theorem c6_chain_state_advance_witness :
    ∃ cfg', Chain.stepChainConfiguration
        (some [("nextIndex", JValue.num ⟨3, 1⟩)]) "out/run000003" = .ok cfg' ∧
      objGet cfg' "nextIndex" = some (.num ⟨3 + 1, 1⟩) ∧
      objGet cfg' "previous" = some (.str (pathBasename "out/run000003")) :=
  (c6_chain_state_advance [("nextIndex", JValue.num ⟨3, 1⟩)] "out/run000003" 3).1
    rfl rfl

/-! ### Claim C1 -/

theorem objGet_append (l₁ l₂ : JObj) (k : String) :
    objGet (l₁ ++ l₂) k = overrideWith (objGet l₂ k) (objGet l₁ k) :=
  lookupLast_append l₁ l₂ k

theorem lastFileValue_cons (fs : Files.FileSystem) (p : String) (ps : List String)
    (k : String) (o : JObj) (ho : Files.fsGet fs p = some o) :
    Files.lastFileValue fs (p :: ps) k
      = overrideWith (Files.lastFileValue fs ps k) (objGet o k) := by
  have h0 : overrideWith ((Files.fsGet fs p).bind (fun o => objGet o k)) none
      = objGet o k := by
    rw [ho]
    show overrideWith (objGet o k) none = objGet o k
    exact overrideWith_none _
  show List.foldl (fun acc q => overrideWith ((Files.fsGet fs q).bind (fun o => objGet o k)) acc)
      (overrideWith ((Files.fsGet fs p).bind (fun o => objGet o k)) none) ps
      = overrideWith (Files.lastFileValue fs ps k) (objGet o k)
  rw [h0]
  exact foldl_override_init (fun q => (Files.fsGet fs q).bind (fun o => objGet o k))
    ps (objGet o k)

theorem lastFileValue_cons_none (fs : Files.FileSystem) (p : String)
    (ps : List String) (k : String) (ho : Files.fsGet fs p = none) :
    Files.lastFileValue fs (p :: ps) k = Files.lastFileValue fs ps k := by
  show List.foldl (fun acc q => overrideWith ((Files.fsGet fs q).bind (fun o => objGet o k)) acc)
      (overrideWith ((Files.fsGet fs p).bind (fun o => objGet o k)) none) ps
      = Files.lastFileValue fs ps k
  rw [ho]
  rfl

theorem mergeFiles_ok (fs : Files.FileSystem) (paths : List String)
    (h1 : ∀ p ∈ paths, (Files.fsGet fs p).isSome = true) :
    ∀ acc : JObj, ∃ m, Files.mergeFiles fs paths acc = .ok m ∧
      ∀ k, objGet m k
        = overrideWith (Files.lastFileValue fs paths k) (objGet acc k) := by
  induction paths with
  | nil =>
    intro acc
    exact ⟨acc, rfl, fun k => rfl⟩
  | cons p ps ih =>
    intro acc
    obtain ⟨o, ho⟩ : ∃ o, Files.fsGet fs p = some o := by
      have hs := h1 p (by simp)
      cases hh : Files.fsGet fs p
      · rw [hh] at hs; simp at hs
      · exact ⟨_, rfl⟩
    obtain ⟨m, hm, hk⟩ := ih (fun q hq => h1 q (by simp [hq])) (acc ++ o)
    refine ⟨m, ?_, ?_⟩
    · show (match Files.fsGet fs p with
        | none => Except.error ("ENOENT: no such file or directory: " ++ p)
        | some fileObject => Files.mergeFiles fs ps (acc ++ fileObject)) = .ok m
      rw [ho]
      exact hm
    · intro k
      rw [hk k, lastFileValue_cons fs p ps k o ho, objGet_append]
      cases Files.lastFileValue fs ps k <;> rfl

theorem checkRequired_all (options : JObj) (required : List String)
    (h : ∀ r ∈ required, (objGet options r).isSome = true) :
    Files.checkRequired options required = .ok options := by
  induction required with
  | nil => rfl
  | cons r rs ih =>
    have hr := h r (by simp)
    simp [Files.checkRequired, hr, ih (fun x hx => h x (by simp [hx]))]

theorem lastFileValue_isSome (fs : Files.FileSystem) (paths : List String)
    (k : String)
    (hex : ∃ p ∈ paths, ∃ o, Files.fsGet fs p = some o ∧ (objGet o k).isSome = true) :
    (Files.lastFileValue fs paths k).isSome = true := by
  induction paths with
  | nil =>
    obtain ⟨p, hp, _⟩ := hex
    simp at hp
  | cons p ps ih =>
    obtain ⟨q, hq, o, ho, hsome⟩ := hex
    rcases List.mem_cons.mp hq with rfl | hq'
    · rw [lastFileValue_cons fs q ps k o ho]
      rcases hlv : Files.lastFileValue fs ps k with _ | v
      · simpa [overrideWith] using hsome
      · rfl
    · have hres := ih ⟨q, hq', o, ho, hsome⟩
      cases hp : Files.fsGet fs p with
      | none =>
        rw [lastFileValue_cons_none fs p ps k hp]
        exact hres
      | some o' =>
        rw [lastFileValue_cons fs p ps k o' hp]
        rcases hlv : Files.lastFileValue fs ps k with _ | v
        · rw [hlv] at hres; simp at hres
        · rfl

/-- Claim C1: for every defaults object, every ordered list of existing
option-file paths, and every required list whose names are each defined in the
defaults or in some file, `readOptions` returns without throwing and, for each
key, yields the value from the last file in the list that defines that key, or
the default value if no file defines it; the merge is a top-level shallow merge
(whole `JValue`s, so nested objects replace rather than deep-merge). -/
theorem c1_read_options_merge (fs : Files.FileSystem) (paths : List String)
    (defaults : JObj) (required : List String)
    (h1 : ∀ p ∈ paths, (Files.fsGet fs p).isSome = true)
    (h2 : ∀ r ∈ required, (objGet defaults r).isSome = true ∨
      ∃ p ∈ paths, ∃ o, Files.fsGet fs p = some o ∧ (objGet o r).isSome = true) :
    ∃ options, Files.readOptions fs paths defaults required = .ok options ∧
      ∀ k, objGet options k
        = overrideWith (Files.lastFileValue fs paths k) (objGet defaults k) := by
  obtain ⟨m, hm, hk⟩ := mergeFiles_ok fs paths h1 defaults
  have hreq : ∀ r ∈ required, (objGet m r).isSome = true := by
    intro r hr
    rcases h2 r hr with hd | hex
    · rw [hk r]
      cases Files.lastFileValue fs paths r
      · simpa [overrideWith] using hd
      · rfl
    · rw [hk r]
      have hres := lastFileValue_isSome fs paths r hex
      rcases hlv : Files.lastFileValue fs paths r with _ | v
      · rw [hlv] at hres; simp at hres
      · rfl
  refine ⟨m, ?_, hk⟩
  show (Files.mergeFiles fs paths defaults).bind
    (fun options => Files.checkRequired options required) = .ok m
  rw [hm]
  exact checkRequired_all m required hreq

/-- Witness for C1: two config files over defaults; the later file wins for
both the scalar key "x" and the nested object "deep" (replaced wholesale, not
deep-merged), and an undefined-in-files key "d" keeps its default. -/
theorem c1_read_options_merge_witness :
    ∃ options, Files.readOptions
        [("s/config.json", [("x", JValue.num ⟨1, 1⟩),
                            ("deep", JValue.obj [("a", JValue.num ⟨1, 1⟩)])]),
         ("i/config.json", [("x", JValue.num ⟨2, 1⟩),
                            ("deep", JValue.obj [("b", JValue.num ⟨2, 1⟩)])])]
        ["s/config.json", "i/config.json"]
        [("x", JValue.num ⟨0, 1⟩), ("d", JValue.str "default")]
        ["x", "d"] = .ok options ∧
      objGet options "x" = some (JValue.num ⟨2, 1⟩) ∧
      objGet options "deep" = some (JValue.obj [("b", JValue.num ⟨2, 1⟩)]) ∧
      objGet options "d" = some (JValue.str "default") := by
  obtain ⟨options, hok, hall⟩ := c1_read_options_merge
    [("s/config.json", [("x", JValue.num ⟨1, 1⟩),
                        ("deep", JValue.obj [("a", JValue.num ⟨1, 1⟩)])]),
     ("i/config.json", [("x", JValue.num ⟨2, 1⟩),
                        ("deep", JValue.obj [("b", JValue.num ⟨2, 1⟩)])])]
    ["s/config.json", "i/config.json"]
    [("x", JValue.num ⟨0, 1⟩), ("d", JValue.str "default")]
    ["x", "d"]
    (by intro p hp; fin_cases hp <;> rfl)
    (by
      intro r hr
      fin_cases hr
      · exact Or.inr ⟨"i/config.json", by simp, _, rfl, rfl⟩
      · exact Or.inl rfl)
  exact ⟨options, hok, (hall "x").trans rfl, (hall "deep").trans rfl,
    (hall "d").trans rfl⟩

/-! ### Claims C4 and C5: the docker chain loop -/

theorem runChainAux_all_true (results : Nat → Bool) (out pattern : String)
    (start : Int) :
    ∀ (remaining runIdx : Nat) (input : Option String),
      (∀ d, d < remaining → results (runIdx + d) = true) →
      (Docker.runChainAux results out pattern start input runIdx remaining).1.length
          = remaining ∧
      (Docker.runChainAux results out pattern start input runIdx remaining).2 = true := by
  intro remaining
  induction remaining with
  | zero =>
    intro runIdx input _
    exact ⟨rfl, rfl⟩
  | succ r ih =>
    intro runIdx input h
    have h0 : results runIdx = true := by simpa using h 0 (Nat.succ_pos r)
    have harg : ∀ d, d < r → results (runIdx + 1 + d) = true := by
      intro d hd
      have heq : runIdx + 1 + d = runIdx + (d + 1) := by omega
      rw [heq]
      exact h (d + 1) (by omega)
    obtain ⟨hlen, hb⟩ := ih (runIdx + 1)
      (some (Docker.getRunOutputDirectory out pattern (start + (runIdx : Int)))) harg
    constructor
    · simp [Docker.runChainAux, h0, hlen]
    · simp [Docker.runChainAux, h0, hb]

theorem runChainAux_stops (results : Nat → Bool) (out pattern : String)
    (start : Int) :
    ∀ (remaining j runIdx : Nat) (input : Option String),
      j < remaining → results (runIdx + j) = false →
      (∀ d, d < j → results (runIdx + d) = true) →
      (Docker.runChainAux results out pattern start input runIdx remaining).1.length
          = j + 1 ∧
      (Docker.runChainAux results out pattern start input runIdx remaining).2 = false := by
  intro remaining
  induction remaining with
  | zero =>
    intro j runIdx input hj _ _
    exact absurd hj (Nat.not_lt_zero j)
  | succ r ih =>
    intro j runIdx input hj hfalse hprev
    cases j with
    | zero =>
      have h0 : results runIdx = false := by simpa using hfalse
      constructor <;> simp [Docker.runChainAux, h0]
    | succ j' =>
      have h0 : results runIdx = true := by simpa using hprev 0 (Nat.succ_pos j')
      have hfalse' : results (runIdx + 1 + j') = false := by
        have heq : runIdx + 1 + j' = runIdx + (j' + 1) := by omega
        rw [heq]
        exact hfalse
      have hprev' : ∀ d, d < j' → results (runIdx + 1 + d) = true := by
        intro d hd
        have heq : runIdx + 1 + d = runIdx + (d + 1) := by omega
        rw [heq]
        exact hprev (d + 1) (by omega)
      obtain ⟨hlen, hb⟩ := ih j' (runIdx + 1)
        (some (Docker.getRunOutputDirectory out pattern (start + (runIdx : Int))))
        (by omega) hfalse' hprev'
      constructor
      · simp [Docker.runChainAux, h0, hlen]
      · simp [Docker.runChainAux, h0, hb]

theorem runChainAux_records (results : Nat → Bool) (out pattern : String)
    (start : Int) :
    ∀ (remaining runIdx : Nat) (input : Option String) (n : Nat)
      (r : Docker.RunRecord),
      (Docker.runChainAux results out pattern start input runIdx remaining).1[n]?
          = some r →
      r.runIdx = runIdx + n ∧
      r.runNumber = start + (runIdx : Int) + (n : Int) ∧
      r.outputDirectory
        = Docker.getRunOutputDirectory out pattern (start + (runIdx : Int) + (n : Int)) ∧
      r.inputDirectory = (if n = 0 then input
        else some (Docker.getRunOutputDirectory out pattern
          (start + (runIdx : Int) + (n : Int) - 1))) := by
  intro remaining
  induction remaining with
  | zero =>
    intro runIdx input n r hsome
    simp [Docker.runChainAux] at hsome
  | succ rem ih =>
    intro runIdx input n r hsome
    cases h0 : results runIdx with
    | false =>
      simp [Docker.runChainAux, h0] at hsome
      cases n with
      | zero =>
        obtain ⟨rfl⟩ : r = ⟨runIdx, start + (runIdx : Int), input,
            Docker.getRunOutputDirectory out pattern (start + (runIdx : Int))⟩ := by
          simpa using hsome.symm
        refine ⟨by simp, by simp, by simp, by simp⟩
      | succ n' =>
        simp at hsome
    | true =>
      rw [show (Docker.runChainAux results out pattern start input runIdx (rem + 1)).1
          = (⟨runIdx, start + (runIdx : Int), input,
              Docker.getRunOutputDirectory out pattern (start + (runIdx : Int))⟩ :
              Docker.RunRecord)
            :: (Docker.runChainAux results out pattern start
              (some (Docker.getRunOutputDirectory out pattern (start + (runIdx : Int))))
              (runIdx + 1) rem).1 from by simp [Docker.runChainAux, h0]] at hsome
      cases n with
      | zero =>
        obtain ⟨rfl⟩ : r = ⟨runIdx, start + (runIdx : Int), input,
            Docker.getRunOutputDirectory out pattern (start + (runIdx : Int))⟩ := by
          simpa using hsome.symm
        refine ⟨by simp, by simp, by simp, by simp⟩
      | succ n' =>
        rw [List.getElem?_cons_succ] at hsome
        obtain ⟨hidx, hnum, hout, hin⟩ := ih (runIdx + 1)
          (some (Docker.getRunOutputDirectory out pattern (start + (runIdx : Int))))
          n' r hsome
        refine ⟨by omega, ?_, ?_, ?_⟩
        · rw [hnum]
          push_cast
          ring
        · rw [hout]
          congr 1
          push_cast
          ring
        · rw [hin]
          cases n' with
          | zero =>
            simp only [if_pos rfl, if_neg (Nat.succ_ne_zero 0)]
            congr 2
            push_cast
            ring
          | succ n'' =>
            simp only [if_neg (Nat.succ_ne_zero n''), if_neg (Nat.succ_ne_zero (n'' + 1))]
            congr 2
            push_cast
            ring

/-- Claim C4: a chain terminates exactly when `max` runs have completed or a
run yields `chainable = false`; with `max = 2` and an always-chainable script
the driver performs exactly 2 runs and returns `true`, and with a script that
is not chainable on run 1 it performs exactly 1 run and stops cleanly. -/
theorem c4_chain_termination :
    (∀ (results : Nat → Bool) (input : Option String) (out pattern : String)
        (start maxRuns : Int),
      ((∀ i, i < maxRuns.toNat → results i = true) →
        (Docker.run results input out pattern start maxRuns).1.length = maxRuns.toNat ∧
        (Docker.run results input out pattern start maxRuns).2 = true) ∧
      (∀ j, j < maxRuns.toNat → results j = false →
        (∀ i, i < j → results i = true) →
        (Docker.run results input out pattern start maxRuns).1.length = j + 1 ∧
        (Docker.run results input out pattern start maxRuns).2 = false)) ∧
    ((Docker.run (fun _ => true) none "out" "run%06d" 1 2).1.length = 2 ∧
      (Docker.run (fun _ => true) none "out" "run%06d" 1 2).2 = true) ∧
    ((Docker.run (fun _ => false) none "out" "run%06d" 1 2).1.length = 1 ∧
      (Docker.run (fun _ => false) none "out" "run%06d" 1 2).2 = false) := by
  refine ⟨?_, ⟨rfl, rfl⟩, ⟨rfl, rfl⟩⟩
  intro results input out pattern start maxRuns
  constructor
  · intro h
    exact runChainAux_all_true results out pattern start maxRuns.toNat 0 input
      (fun d hd => by simpa using h d hd)
  · intro j hj hfalse hprev
    exact runChainAux_stops results out pattern start maxRuns.toNat j 0 input hj
      (by simpa using hfalse) (fun d hd => by simpa using hprev d hd)

/-- Witness for C4: with `max = 5` and a script chainable on runs 0..2 only,
the driver performs exactly 4 runs and returns `false`. -/
theorem c4_chain_termination_witness :
    (Docker.run (fun i => decide (i < 3)) none "o" "run%06d" 1 5).1.length = 3 + 1 ∧
    (Docker.run (fun i => decide (i < 3)) none "o" "run%06d" 1 5).2 = false :=
  (c4_chain_termination.1 (fun i => decide (i < 3)) none "o" "run%06d" 1 5).2 3
    (by decide) (by decide) (fun i hi => decide_eq_true hi)

/-- Claim C5: under counter-in-filename chaining with pattern `"run%06d"` and
`start = 1`, the Nth run's output directory name is the pattern with its
placeholder replaced by N padded with leading zeroes to 6 digits
(`run000001`, `run000002`, ... in order), and run N's output directory is run
N+1's input directory. -/
theorem c5_run_directory_naming :
    (∀ (out : String) (n : Int),
      Docker.getRunOutputDirectory out "run%06d" n
        = pathJoin out ⟨'r' :: 'u' :: 'n' :: zeroPadded 6 n⟩) ∧
    (∀ (results : Nat → Bool) (input : Option String) (out : String)
        (maxRuns : Int) (n : Nat) (r r' : Docker.RunRecord),
      ((Docker.run results input out "run%06d" 1 maxRuns).1[n]? = some r →
        r.outputDirectory
          = pathJoin out ⟨'r' :: 'u' :: 'n' :: zeroPadded 6 (1 + (n : Int))⟩) ∧
      ((Docker.run results input out "run%06d" 1 maxRuns).1[n]? = some r →
        (Docker.run results input out "run%06d" 1 maxRuns).1[n + 1]? = some r' →
        r'.inputDirectory = some r.outputDirectory)) ∧
    Docker.getRunOutputDirectory "out" "run%06d" 1 = "out/run000001" ∧
    Docker.getRunOutputDirectory "out" "run%06d" 2 = "out/run000002" := by
  have hgen : ∀ (out : String) (n : Int),
      Docker.getRunOutputDirectory out "run%06d" n
        = pathJoin out ⟨'r' :: 'u' :: 'n' :: zeroPadded 6 n⟩ := by
    intro out n
    show pathJoin out ⟨'r' :: 'u' :: 'n' :: (Docker.formatRunNumber 6 n ++ [])⟩ = _
    rw [List.append_nil]
    rfl
  refine ⟨hgen, ?_, hgen "out" 1, hgen "out" 2⟩
  intro results input out maxRuns n r r'
  constructor
  · intro hsome
    obtain ⟨_, _, hout, _⟩ := runChainAux_records results out "run%06d" 1
      maxRuns.toNat 0 input n r hsome
    have harg : (1 : Int) + ((0 : Nat) : Int) + (n : Int) = 1 + (n : Int) := by
      omega
    rw [hout, harg, hgen]
  · intro hsome hsome'
    obtain ⟨_, _, hout, _⟩ := runChainAux_records results out "run%06d" 1
      maxRuns.toNat 0 input n r hsome
    obtain ⟨_, _, _, hin⟩ := runChainAux_records results out "run%06d" 1
      maxRuns.toNat 0 input (n + 1) r' hsome'
    rw [hin, hout]
    simp only [if_neg (Nat.succ_ne_zero n)]
    congr 2
    omega

/-- Witness for C5: the first two runs of a 2-run chain have directories
`o/run000001` and `o/run000002`, and run 2's input is run 1's output. -/
theorem c5_run_directory_naming_witness :
    ∃ r r', (Docker.run (fun _ => true) none "o" "run%06d" 1 2).1[0]? = some r ∧
      (Docker.run (fun _ => true) none "o" "run%06d" 1 2).1[0 + 1]? = some r' ∧
      r.outputDirectory
        = pathJoin "o" ⟨'r' :: 'u' :: 'n' :: zeroPadded 6 (1 + ((0 : Nat) : Int))⟩ ∧
      r'.inputDirectory = some r.outputDirectory := by
  refine ⟨⟨0, 1, none, "o/run000001"⟩, ⟨1, 2, some "o/run000001", "o/run000002"⟩,
    rfl, rfl, ?_, ?_⟩
  · exact (c5_run_directory_naming.2.1 (fun _ => true) none "o" 2 0
      ⟨0, 1, none, "o/run000001"⟩ ⟨1, 2, some "o/run000001", "o/run000002"⟩).1 rfl
  · exact (c5_run_directory_naming.2.1 (fun _ => true) none "o" 2 0
      ⟨0, 1, none, "o/run000001"⟩ ⟨1, 2, some "o/run000001", "o/run000002"⟩).2 rfl rfl

/-! ### Claim C10: chain.max validation -/

theorem checkPattern_ok (chain : JObj)
    (hpat : objGet chain "pattern" = none ∨
      ∃ s, objGet chain "pattern" = some (.str s) ∧
        (Docker.matchAllRunFormat s.data).isEmpty = false) :
    ∃ c1, Cli.checkPattern chain = .ok c1 ∧
      objGet c1 "start" = objGet chain "start" ∧
      objGet c1 "max" = objGet chain "max" := by
  rcases hpat with hp | ⟨s, hp, hs⟩
  · refine ⟨objSet chain "pattern" (.str Cli.CHAIN_PATTERN_DEFAULT), ?_, ?_, ?_⟩
    · simp [Cli.checkPattern, hp]
    · exact objGet_objSet_other chain "pattern" "start" _ (by decide)
    · exact objGet_objSet_other chain "pattern" "max" _ (by decide)
  · exact ⟨chain, by simp [Cli.checkPattern, hp, hs], rfl, rfl⟩

theorem checkStart_ok (chain : JObj)
    (hstart : objGet chain "start" = none ∨
      ∃ q : JSNumber, objGet chain "start" = some (.num q) ∧ q.isInteger = true ∧
        q.blt (JSNumber.ofInt 1) = false) :
    ∃ c2, Cli.checkStart chain = .ok c2 ∧
      objGet c2 "max" = objGet chain "max" ∧
      Cli.startLt1 c2 = false := by
  rcases hstart with hst | ⟨q, hst, hqi, hqb⟩
  · refine ⟨objSet chain "start" (.num (JSNumber.ofInt 1)), ?_, ?_, ?_⟩
    · simp [Cli.checkStart, hst]
    · exact objGet_objSet_other chain "start" "max" _ (by decide)
    · rw [Cli.startLt1, objGet_objSet_self]
      rfl
  · refine ⟨chain, ?_, rfl, ?_⟩
    · simp [Cli.checkStart, hst, hqi, hqb]
    · rw [Cli.startLt1, hst]
      exact hqb

/-- Counterexample for C10: `max = 2.5` is present and is a number, yet
`getChainConfiguration` throws (claim says it throws on account of `max` only
when `max` is not a number). -/
theorem c10_counterexample :
    objGet [("max", JValue.num ⟨5, 2⟩)] "max" = some (JValue.num ⟨5, 2⟩) ∧
    ∃ e, Cli.getChainConfiguration (.config [("max", JValue.num ⟨5, 2⟩)])
      = .error e :=
  ⟨rfl, ⟨_, rfl⟩⟩

/-- Claim C10 (amended): for a chain configuration whose `start` and `pattern`
are valid or absent, `getChainConfiguration` throws on account of `max` only
when `max` is present and is not a number or not an integer: every integer
`max`, including zero and negative values, is accepted because the positivity
check tests `chain.start` instead of `chain.max`; with such a non-positive
`max` the chain driver performs zero runs and reports the chain as still
chainable (returns `true`). -/
theorem c10_chain_max_validation (chain : JObj)
    (hpat : objGet chain "pattern" = none ∨
      ∃ s, objGet chain "pattern" = some (.str s) ∧
        (Docker.matchAllRunFormat s.data).isEmpty = false)
    (hstart : objGet chain "start" = none ∨
      ∃ q : JSNumber, objGet chain "start" = some (.num q) ∧ q.isInteger = true ∧
        q.blt (JSNumber.ofInt 1) = false) :
    ((∀ m : JSNumber, objGet chain "max" = some (.num m) → m.isInteger = true →
      ∃ cfg, Cli.getChainConfiguration (.config chain) = .ok (some cfg)) ∧
    (objGet chain "max" = none →
      ∃ cfg, Cli.getChainConfiguration (.config chain) = .ok (some cfg)) ∧
    (∀ v : JValue, objGet chain "max" = some v → (∀ q : JSNumber, v ≠ .num q) →
      ∃ e, Cli.getChainConfiguration (.config chain) = .error e) ∧
    (∀ m : JSNumber, objGet chain "max" = some (.num m) → m.isInteger = false →
      ∃ e, Cli.getChainConfiguration (.config chain) = .error e)) ∧
    (∀ (results : Nat → Bool) (input : Option String) (out pattern : String)
        (start maxRuns : Int), maxRuns ≤ 0 →
      Docker.run results input out pattern start maxRuns = ([], true)) := by
  obtain ⟨c1, h1, h1s, h1m⟩ := checkPattern_ok chain hpat
  obtain ⟨c2, h2, h2m, h2lt⟩ := checkStart_ok c1 (by rw [h1s]; exact hstart)
  have hpipe : ∀ res : Except String JObj, Cli.checkMax c2 = res →
      Cli.getChainConfiguration (.config chain) = res.map some := by
    intro res hres
    show (Cli.checkPattern chain).bind _ = _
    rw [h1]
    show (Cli.checkStart c1).bind _ = _
    rw [h2]
    show (Cli.checkMax c2).map some = _
    rw [hres]
  refine ⟨⟨?_, ?_, ?_, ?_⟩, ?_⟩
  · intro m hm hint
    refine ⟨c2, hpipe (.ok c2) ?_⟩
    rw [Cli.checkMax, h2m, h1m, hm]
    simp [hint, h2lt]
  · intro hm
    refine ⟨c2, hpipe (.ok c2) ?_⟩
    rw [Cli.checkMax, h2m, h1m, hm]
  · intro v hm hv
    have hchk : ∃ e, Cli.checkMax c2 = .error e := by
      rw [Cli.checkMax, h2m, h1m, hm]
      cases v with
      | num q => exact absurd rfl (hv q)
      | null => exact ⟨_, rfl⟩
      | bool b => exact ⟨_, rfl⟩
      | str s => exact ⟨_, rfl⟩
      | obj o => exact ⟨_, rfl⟩
      | arr a => exact ⟨_, rfl⟩
    obtain ⟨e, he⟩ := hchk
    exact ⟨e, hpipe (.error e) he⟩
  · intro m hm hint
    refine ⟨"chain.max is not a positive integer",
      hpipe (.error "chain.max is not a positive integer") ?_⟩
    rw [Cli.checkMax, h2m, h1m, hm]
    simp [hint]
  · intro results input out pattern start maxRuns hneg
    show Docker.runChainAux results out pattern start input 0 maxRuns.toNat = ([], true)
    rw [show maxRuns.toNat = 0 from by omega]
    rfl

/-- Witness for C10: a configuration with `max = -3` (an integer below 1) and
nothing else passes validation, and a driver invocation with that `max`
performs zero runs and returns `true`. -/
theorem c10_chain_max_validation_witness :
    (∃ cfg, Cli.getChainConfiguration (.config [("max", JValue.num ⟨-3, 1⟩)])
      = .ok (some cfg)) ∧
    Docker.run (fun _ => true) none "out" "run%06d" 1 (-3) = ([], true) := by
  have h := c10_chain_max_validation [("max", JValue.num ⟨-3, 1⟩)]
    (Or.inl rfl) (Or.inl rfl)
  exact ⟨h.1.1 ⟨-3, 1⟩ rfl rfl,
    h.2 (fun _ => true) none "out" "run%06d" 1 (-3) (by decide)⟩

/-! ### Claims C2 and C9: script outcome and finalization -/

theorem mem_cleanup_close (contextNames : List String) (tracing : Bool) (c : String)
    (hc : c ∈ contextNames) :
    Scripts.RunEvent.closeContext c ∈ contextNames.foldr
      (fun contextName acc =>
        (if tracing then [Scripts.RunEvent.stopTracing contextName] else [])
          ++ Scripts.RunEvent.closeContext contextName :: acc) [] := by
  induction contextNames with
  | nil => simp at hc
  | cons x xs ih =>
    rcases List.mem_cons.mp hc with rfl | hc'
    · exact List.mem_append_right _ (List.mem_cons_self _ _)
    · exact List.mem_append_right _ (List.mem_cons_of_mem _ (ih hc'))

theorem mem_cleanup_stop (contextNames : List String) (c : String)
    (hc : c ∈ contextNames) :
    Scripts.RunEvent.stopTracing c ∈ contextNames.foldr
      (fun contextName acc =>
        (if true then [Scripts.RunEvent.stopTracing contextName] else [])
          ++ Scripts.RunEvent.closeContext contextName :: acc) [] := by
  induction contextNames with
  | nil => simp at hc
  | cons x xs ih =>
    rcases List.mem_cons.mp hc with rfl | hc'
    · exact List.mem_append_left _ (by simp)
    · exact List.mem_append_right _ (List.mem_cons_of_mem _ (ih hc'))

/-- Claim C2: when the user script's run method rejects or throws, the runner
logs the error as fatal but still performs the full finalization — stops
tracing (when enabled) and closes every browser context, hashes the output
tree, writes the sentinel file, and chmods the tree read-only — and the run's
result is `chainable = false`. -/
theorem c2_script_error_finalization (contextNames : List String)
    (runOptions : Scripts.RunOptions) (chainName : Option String) (e : String) :
    (Scripts.run contextNames runOptions chainName (.error e)).chainable = false ∧
    Scripts.RunEvent.logFatal e
        ∈ (Scripts.run contextNames runOptions chainName (.error e)).events ∧
    Scripts.RunEvent.hashOutput
        ∈ (Scripts.run contextNames runOptions chainName (.error e)).events ∧
    Scripts.RunEvent.writeIdFile
        ∈ (Scripts.run contextNames runOptions chainName (.error e)).events ∧
    Scripts.RunEvent.chmodReadOnly
        ∈ (Scripts.run contextNames runOptions chainName (.error e)).events ∧
    ∀ c ∈ contextNames,
      Scripts.RunEvent.closeContext c
          ∈ (Scripts.run contextNames runOptions chainName (.error e)).events ∧
      (runOptions.tracing = true →
        Scripts.RunEvent.stopTracing c
            ∈ (Scripts.run contextNames runOptions chainName (.error e)).events) := by
  refine ⟨rfl, ?_, ?_, ?_, ?_, ?_⟩
  · simp [Scripts.run]
  · cases chainName <;> simp [Scripts.run]
  · cases chainName <;> simp [Scripts.run]
  · cases chainName <;> simp [Scripts.run]
  · intro c hc
    constructor
    · have := mem_cleanup_close contextNames runOptions.tracing c hc
      simp [Scripts.run]
      tauto
    · intro htr
      have h' := mem_cleanup_stop contextNames c hc
      simp at h'
      simp [Scripts.run, htr]
      tauto

/-- Witness for C2: one context with tracing on and a chain name set; the
erroring script is logged fatal, the context is still closed, tracing
stopped, the tree hashed and locked, and the result is not chainable. -/
theorem c2_script_error_finalization_witness :
    (Scripts.run ["default"] Scripts.DEFAULT (some "chain")
      (.error "boom")).chainable = false ∧
    Scripts.RunEvent.logFatal "boom"
      ∈ (Scripts.run ["default"] Scripts.DEFAULT (some "chain") (.error "boom")).events ∧
    Scripts.RunEvent.chmodReadOnly
      ∈ (Scripts.run ["default"] Scripts.DEFAULT (some "chain") (.error "boom")).events ∧
    Scripts.RunEvent.closeContext "default"
      ∈ (Scripts.run ["default"] Scripts.DEFAULT (some "chain") (.error "boom")).events ∧
    Scripts.RunEvent.stopTracing "default"
      ∈ (Scripts.run ["default"] Scripts.DEFAULT (some "chain") (.error "boom")).events := by
  have h := c2_script_error_finalization ["default"] Scripts.DEFAULT (some "chain") "boom"
  obtain ⟨h1, h2, _, _, h5, h6⟩ := h
  obtain ⟨h7, h8⟩ := h6 "default" (by simp)
  exact ⟨h1, h2, h5, h7, h8 rfl⟩

/-- Counterexample for C9: the truthy return value `1` yields
`chainable = false`, not `true` — the code compares with `true === result`
rather than coercing to boolean. -/
theorem c9_counterexample :
    jsTruthy (JValue.num ⟨1, 1⟩) = true ∧
    (Scripts.run ["default"] Scripts.DEFAULT none
      (.ok (JValue.num ⟨1, 1⟩))).chainable = false :=
  ⟨rfl, rfl⟩

/-- Claim C9 (amended): the chainable result equals the strict comparison
`true === returnValue`: it is `true` exactly when the script's run method
resolves to the boolean `true`, and `false` for every other value, including
truthy ones. -/
theorem c9_chainable_strict_true (contextNames : List String)
    (runOptions : Scripts.RunOptions) (chainName : Option String) (v : JValue) :
    (Scripts.run contextNames runOptions chainName (.ok v)).chainable = true
      ↔ v = .bool true := by
  show isStrictTrue v = true ↔ v = .bool true
  cases v with
  | bool b => cases b <;> simp [isStrictTrue]
  | null => simp [isStrictTrue]
  | num q => simp [isStrictTrue]
  | str s => simp [isStrictTrue]
  | obj o => simp [isStrictTrue]
  | arr a => simp [isStrictTrue]

/-- Witness for C9 (amended): a script resolving to the boolean `true` yields
`chainable = true`. -/
theorem c9_chainable_strict_true_witness :
    (Scripts.run ["default"] Scripts.DEFAULT none
      (.ok (JValue.bool true))).chainable = true :=
  (c9_chainable_strict_true ["default"] Scripts.DEFAULT none (JValue.bool true)).mpr rfl

/-! ### Claim C3: finalization, hash and lock -/

theorem lookupLast_cons {α : Type} (e : String × α) (t : List (String × α))
    (k : String) :
    lookupLast (e :: t) k
      = overrideWith (lookupLast t k) (if e.1 = k then some e.2 else none) := by
  show List.foldl _ (if e.1 = k then some e.2 else none) t = _
  exact lookupLast_foldl_init t k _

theorem lookupLast_eq_none_forall {α : Type} (l : List (String × α)) (k : String)
    (h : lookupLast l k = none) :
    ∀ e ∈ l, e.1 ≠ k := by
  induction l with
  | nil =>
    intro e he
    simp at he
  | cons x t ih =>
    rw [lookupLast_cons] at h
    have hx : (if x.1 = k then some x.2 else none) = none ∧ lookupLast t k = none := by
      cases hlt : lookupLast t k with
      | some v =>
        rw [hlt] at h
        exact absurd h (by simp [overrideWith])
      | none =>
        rw [hlt] at h
        exact ⟨h, rfl⟩
    intro e he
    rcases List.mem_cons.mp he with rfl | he'
    · intro hk
      rw [if_pos hk] at hx
      exact Option.noConfusion hx.1
    · exact ih hx.2 e he'

/-- Counterexample for C3: re-hashing the finalized output tree does not
reproduce the stored hash, because the stored hash was computed before the
sentinel file itself was added to the tree. -/
theorem c3_counterexample :
    ¬ (Scripts.hashTree (Scripts.finalizeOutput [("f.txt", "x")]).tree
        = (Scripts.finalizeOutput [("f.txt", "x")]).storedHash) := by
  decide

/-- Claim C3 (amended): after finalization any write into the output tree
fails, the sentinel file holds the stored hash, and re-hashing the output
tree *excluding the sentinel file* reproduces the stored hash (the hash is
computed before the sentinel is written into the same tree, so the whole
finalized tree re-hashes differently). -/
theorem c3_finalized_tree (t : Scripts.FileTree)
    (hid : Scripts.treeGet t Scripts.ID_FILE_NAME = none) :
    (∀ p c, Scripts.writeLocked (Scripts.finalizeOutput t) p c = none) ∧
    Scripts.treeGet (Scripts.finalizeOutput t).tree Scripts.ID_FILE_NAME
      = some (Scripts.finalizeOutput t).storedHash ∧
    Scripts.hashTree
        (Scripts.treeRemove (Scripts.finalizeOutput t).tree Scripts.ID_FILE_NAME)
      = (Scripts.finalizeOutput t).storedHash := by
  refine ⟨fun p c => rfl, ?_, ?_⟩
  · show lookupLast (t ++ [(Scripts.ID_FILE_NAME, Scripts.hashTree t)])
        Scripts.ID_FILE_NAME = some (Scripts.hashTree t)
    rw [lookupLast_append]
    simp [lookupLast, overrideWith]
  · have hkeys := lookupLast_eq_none_forall t Scripts.ID_FILE_NAME hid
    show Scripts.hashTree
        ((t ++ [(Scripts.ID_FILE_NAME, Scripts.hashTree t)]).filter
          (fun e => !(e.1 == Scripts.ID_FILE_NAME))) = Scripts.hashTree t
    rw [List.filter_append]
    have h1 : t.filter (fun e => !(e.1 == Scripts.ID_FILE_NAME)) = t := by
      rw [List.filter_eq_self]
      intro a ha
      simpa using hkeys a ha
    have h2 : ([(Scripts.ID_FILE_NAME, Scripts.hashTree t)]).filter
        (fun e => !(e.1 == Scripts.ID_FILE_NAME)) = [] := by
      simp
    rw [h1, h2, List.append_nil]

/-- Witness for C3 (amended): a one-file tree without a prior sentinel; after
finalization a write fails, and re-hashing without the sentinel gives the
stored hash. -/
theorem c3_finalized_tree_witness :
    Scripts.treeGet [("f.txt", "x")] Scripts.ID_FILE_NAME = none ∧
    Scripts.writeLocked (Scripts.finalizeOutput [("f.txt", "x")]) "g.txt" "y" = none ∧
    Scripts.hashTree
        (Scripts.treeRemove (Scripts.finalizeOutput [("f.txt", "x")]).tree
          Scripts.ID_FILE_NAME)
      = (Scripts.finalizeOutput [("f.txt", "x")]).storedHash := by
  have h := c3_finalized_tree [("f.txt", "x")] rfl
  exact ⟨rfl, h.1 "g.txt" "y", h.2.2⟩

/-! ### Claim C8: replay supersedes record -/

/-- Claim C8: when the `warc` option is set together with a replay mode other
than "not", the record-only proxy for a fresh collection is never initialized
or started (`prepare4Warc` returns null without touching pywb), and only the
replay proxy runs: started against the archive copied into the output tree,
recording exactly in read-write mode, and wired into the browser context
options. -/
theorem c8_replay_supersedes_record (browserContextOptions : JObj)
    (runOptions : Scripts.RunOptions)
    (outputContextDirectory scriptDirectory : String)
    (inputDirectory : Option String) (fsExists : String → Bool) (port : Nat)
    (src : String) (rest : List String)
    (hwarc : runOptions.warc = true)
    (hreplay : runOptions.replay ≠ Scripts.REPLAY_NOT)
    (hsrc : Files.getExisting Scripts.BROWSER_CONTEXT_WARC_DIRECTORY
      [inputDirectory, some scriptDirectory]
      (some (pathBasename outputContextDirectory)) fsExists = src :: rest) :
    Scripts.prepare4Warc browserContextOptions runOptions outputContextDirectory port
      = ([], browserContextOptions, none) ∧
    ∃ events bco proc,
      Scripts.prepare4Replay browserContextOptions runOptions outputContextDirectory
          scriptDirectory inputDirectory fsExists port
        = .ok (events, bco, some proc) ∧
      proc.directory
        = pathJoin outputContextDirectory Scripts.BROWSER_CONTEXT_WARC_DIRECTORY ∧
      proc.record = (runOptions.replay == Scripts.REPLAY_READ_WRITE) ∧
      Scripts.PywbEvent.copyArchive src proc.directory ∈ events ∧
      Scripts.PywbEvent.startProxy proc.directory proc.record
          (Scripts.upstreamOf browserContextOptions) ∈ events ∧
      (∀ d, Scripts.PywbEvent.initCollection d ∉ events) ∧
      objGet bco "proxy"
        = some (.obj [("server", .str ("http://localhost:" ++ toString port))]) := by
  have hne : (runOptions.replay == Scripts.REPLAY_NOT) = false := by
    simp [hreplay]
  constructor
  · simp [Scripts.prepare4Warc, hne]
  · have heval : Scripts.prepare4Replay browserContextOptions runOptions
          outputContextDirectory scriptDirectory inputDirectory fsExists port
        = .ok (Scripts.PywbEvent.copyArchive src
              (pathJoin outputContextDirectory Scripts.BROWSER_CONTEXT_WARC_DIRECTORY)
            :: [Scripts.PywbEvent.reIndex
                  (pathJoin outputContextDirectory Scripts.BROWSER_CONTEXT_WARC_DIRECTORY),
                Scripts.PywbEvent.startProxy
                  (pathJoin outputContextDirectory Scripts.BROWSER_CONTEXT_WARC_DIRECTORY)
                  (runOptions.replay == Scripts.REPLAY_READ_WRITE)
                  (Scripts.upstreamOf browserContextOptions)],
            objSet (objSet browserContextOptions "ignoreHTTPSErrors" (.bool true))
              "proxy"
              (.obj [("server", .str ("http://localhost:" ++ toString port))]),
            some ⟨pathJoin outputContextDirectory Scripts.BROWSER_CONTEXT_WARC_DIRECTORY,
              runOptions.replay == Scripts.REPLAY_READ_WRITE, port⟩) := by
      rw [Scripts.prepare4Replay]
      simp only [bne, hne, Bool.not_false, if_true, hsrc]
      rfl
    refine ⟨_, _, _, heval, rfl, rfl, ?_, ?_, ?_, ?_⟩
    · simp
    · simp
    · intro d
      simp
    · exact objGet_objSet_self _ _ _

/-- Witness for C8: one default context, warc on, read-only replay, an
archive present only in the script directory: no record proxy is prepared and
the replay proxy starts non-recording against the copied archive. -/
theorem c8_replay_supersedes_record_witness :
    Scripts.prepare4Warc []
        ⟨true, false, none, Scripts.REPLAY_READ_ONLY, false, true, "constant",
          none, true⟩
        "out/browserContexts/default" 8080 = ([], [], none) ∧
    ∃ events bco proc,
      Scripts.prepare4Replay []
          ⟨true, false, none, Scripts.REPLAY_READ_ONLY, false, true, "constant",
            none, true⟩
          "out/browserContexts/default" "script" none
          (fun p => p == "script/browserContexts/default/warcs") 8080
        = .ok (events, bco, some proc) ∧
      proc.record = (Scripts.REPLAY_READ_ONLY == Scripts.REPLAY_READ_WRITE) ∧
      (∀ d, Scripts.PywbEvent.initCollection d ∉ events) := by
  have h := c8_replay_supersedes_record []
    ⟨true, false, none, Scripts.REPLAY_READ_ONLY, false, true, "constant",
      none, true⟩
    "out/browserContexts/default" "script" none
    (fun p => p == "script/browserContexts/default/warcs") 8080
    "script/browserContexts/default/warcs" [] rfl (by decide) rfl
  obtain ⟨h1, events, bco, proc, heq, _, hrec, _, _, hinit, _⟩ := h
  exact ⟨h1, events, bco, proc, heq, hrec, hinit⟩

end Scriptor
